import Mathlib

/-!
Verification of the BG + Thalamus FUS-attenuation scripts
(src/src/bg_fus_interactive.py and src/src/bg_gpi_supression_demo.py).

Repository code is embedded over the rational numbers: Python floats become
rationals, vectors of length 2 become functions out of Fin 2, and fallible
entry points return Except.  The basal-ganglia and thalamus networks, the
simulator and the probe recorder come from the nengo library, which is not
part of this repository; where a claim depends on them they are modelled
from the specification, and each such definition says so in its doc comment.
-/

namespace BGFus

/-- Embeds make_fus_scale (src/src/bg_fus_interactive.py lines 33 to 36):
returns the closure scale_fn with scale_fn t = 1 - kappa when
fus_start <= t <= fus_start + fus_dur and 1 otherwise. -/
def make_fus_scale (kappa fus_start fus_dur : ℚ) : ℚ → ℚ :=
  fun t => if fus_start ≤ t ∧ t ≤ fus_start + fus_dur then 1 - kappa else 1

/-- Embeds the cortex node function (src/src/bg_fus_interactive.py line 72):
t maps to the pair [A1 * fus_scale t, A2]. -/
def cortexNode (A1 A2 kappa fus_start fus_dur : ℚ) (t : ℚ) : Fin 2 → ℚ :=
  ![A1 * make_fus_scale kappa fus_start fus_dur t, A2]

/-- Embeds gpi_scale_fn (src/src/bg_gpi_supression_demo.py lines 46 to 48):
gpi_scale_base * (1 - fus_depth when fus_start <= t <= fus_start + fus_dur,
else 1). -/
def gpi_scale_fn (gpi_scale_base fus_depth fus_start fus_dur : ℚ) (t : ℚ) : ℚ :=
  gpi_scale_base * (if fus_start ≤ t ∧ t ≤ fus_start + fus_dur then 1 - fus_depth else 1)

/-- Embeds scaled_gpi_func (src/src/bg_gpi_supression_demo.py lines 88 to 92),
the function monkey-patched onto the scaled_gpi node: with s = gpi_scale_fn t,
it returns [s * x 0, s * x 1]. -/
def scaled_gpi_func (gpi_scale_base fus_depth fus_start fus_dur : ℚ) (t : ℚ)
    (x : Fin 2 → ℚ) : Fin 2 → ℚ :=
  ![gpi_scale_fn gpi_scale_base fus_depth fus_start fus_dur t * x 0,
    gpi_scale_fn gpi_scale_base fus_depth fus_start fus_dur t * x 1]

/-- The transform 0.0 of the two placeholder connections from the gpi_scale
node into scaled_gpi (src/src/bg_gpi_supression_demo.py lines 84 and 85). -/
def placeholderTransform : ℚ := 0

/-- The summed input arriving at the scaled_gpi node as wired
(src/src/bg_gpi_supression_demo.py lines 83 to 85): the connection from
scaler.output plus, on each coordinate, the placeholder connection from
gpi_scale with transform 0.0. -/
def scaled_gpi_node_input (gpi_scale_base fus_depth fus_start fus_dur : ℚ) (t : ℚ)
    (scalerOut : Fin 2 → ℚ) : Fin 2 → ℚ :=
  fun i => scalerOut i +
    placeholderTransform * gpi_scale_fn gpi_scale_base fus_depth fus_start fus_dur t

/-- The output of the scaled_gpi node: the patched function scaled_gpi_func
applied to the wired input (src/src/bg_gpi_supression_demo.py lines 82 to 93). -/
def scaled_gpi_node (gpi_scale_base fus_depth fus_start fus_dur : ℚ) (t : ℚ)
    (scalerOut : Fin 2 → ℚ) : Fin 2 → ℚ :=
  scaled_gpi_func gpi_scale_base fus_depth fus_start fus_dur t
    (scaled_gpi_node_input gpi_scale_base fus_depth fus_start fus_dur t scalerOut)

/-- The single explicit Global Modulation/Scaling Stage of the spec
(section 4.5): output = s * input, elementwise. -/
def globalScalingStage (s : ℚ) (x : Fin 2 → ℚ) : Fin 2 → ℚ :=
  fun i => s * x i

/-- A sequence of evaluations of a signal function, in call order; used to
express statelessness of the generator closures. -/
def evalTrace (g : ℚ → ℚ) (ts : List ℚ) : List ℚ :=
  ts.map g

/-- C1: the modulation signal generator maps every t to amplitude times
1 - kappa inside the closed window [fus_start, fus_start + fus_dur] and to
amplitude outside it; concretely (fus_start = 1/2, fus_dur = 3/10) both
boundaries are inclusive, t = 3/5 is attenuated, and t = 2/5, t = 9/10 are
not. -/
theorem cortex_channel1_window (A1 A2 kappa fs fd t : ℚ) :
    cortexNode A1 A2 kappa fs fd t 0 =
      (if fs ≤ t ∧ t ≤ fs + fd then A1 * (1 - kappa) else A1) ∧
    make_fus_scale kappa (1/2) (3/10) (1/2) = 1 - kappa ∧
    make_fus_scale kappa (1/2) (3/10) (4/5) = 1 - kappa ∧
    make_fus_scale kappa (1/2) (3/10) (3/5) = 1 - kappa ∧
    make_fus_scale kappa (1/2) (3/10) (2/5) = 1 ∧
    make_fus_scale kappa (1/2) (3/10) (9/10) = 1 := by
  refine ⟨?_, ?_, ?_, ?_, ?_, ?_⟩
  · by_cases h : fs ≤ t ∧ t ≤ fs + fd <;>
      simp [cortexNode, make_fus_scale, h, mul_comm]
  all_goals norm_num [make_fus_scale]

/-- C10: the FUS attenuation touches only channel 1 of the cortical drive;
channel 2 of the cortex node output equals the constant A2 for every t,
every kappa and every window. -/
theorem cortex_channel2_unattenuated (A1 A2 kappa fs fd t : ℚ) :
    cortexNode A1 A2 kappa fs fd t 1 = A2 := by
  simp [cortexNode]

/-- C2: the scaled_gpi node, built from its wiring (one connection from the
scaler plus two transform-0.0 placeholder connections) and the function
override, equals the single explicit global scaling stage: for every t and
input x its output is s t * x elementwise, where s t is gpi_scale_base times
1 - fus_depth inside the closed pulse window and gpi_scale_base outside. -/
theorem scaled_gpi_node_is_scaling_stage (base depth fs fd t : ℚ) (x : Fin 2 → ℚ) :
    scaled_gpi_node base depth fs fd t x =
      globalScalingStage (gpi_scale_fn base depth fs fd t) x ∧
    (∀ i, scaled_gpi_node base depth fs fd t x i =
      gpi_scale_fn base depth fs fd t * x i) ∧
    gpi_scale_fn base depth fs fd t =
      (if fs ≤ t ∧ t ≤ fs + fd then base * (1 - depth) else base) := by
  have h : ∀ i, scaled_gpi_node base depth fs fd t x i =
      gpi_scale_fn base depth fs fd t * x i := by
    intro i
    fin_cases i <;>
      simp [scaled_gpi_node, scaled_gpi_func, scaled_gpi_node_input,
        placeholderTransform]
  refine ⟨funext h, h, ?_⟩
  by_cases hw : fs ≤ t ∧ t ≤ fs + fd <;> simp [gpi_scale_fn, hw]

/-- C9: the generator closure is stateless and idempotent: evaluating it
twice at the same t yields the same value both times, and the result of an
evaluation is unchanged by any earlier sequence of evaluations. -/
theorem make_fus_scale_stateless (kappa fs fd t : ℚ) (ts : List ℚ) :
    evalTrace (make_fus_scale kappa fs fd) [t, t] =
      [make_fus_scale kappa fs fd t, make_fus_scale kappa fs fd t] ∧
    evalTrace (make_fus_scale kappa fs fd) (ts ++ [t]) =
      evalTrace (make_fus_scale kappa fs fd) ts ++ [make_fus_scale kappa fs fd t] := by
  exact ⟨rfl, by simp [evalTrace]⟩

/-- C8: with fus_dur = 0 the window degenerates to the single instant
t = fus_start: the scale function returns 1 - kappa exactly at fus_start and
1 everywhere else, so on a time grid that never contains fus_start the
modulation is everywhere unattenuated. -/
theorem zero_duration_window (kappa fs t : ℚ) (ts : List ℚ) (h : fs ∉ ts) :
    make_fus_scale kappa fs 0 t = (if t = fs then 1 - kappa else 1) ∧
    ts.map (make_fus_scale kappa fs 0) = ts.map (fun _ => (1 : ℚ)) := by
  have key : ∀ u : ℚ, make_fus_scale kappa fs 0 u = (if u = fs then 1 - kappa else 1) := by
    intro u
    unfold make_fus_scale
    by_cases hu : u = fs
    · simp [hu]
    · have hcond : ¬(fs ≤ u ∧ u ≤ fs + 0) := by
        rintro ⟨h1, h2⟩
        exact hu (le_antisymm (by simpa using h2) h1)
      rw [if_neg hcond, if_neg hu]
  refine ⟨key t, ?_⟩
  apply List.map_congr_left
  intro a ha
  have hne : a ≠ fs := fun hEq => h (hEq ▸ ha)
  simp [key a, hne]

/-- Closed witness for C8 at kappa = 3/5, fus_start = 1/2, t = 1/2 and the
grid [0, 1/4, 1]. -/
theorem zero_duration_window_witness :
    make_fus_scale (3/5) (1/2) 0 (1/2) = (if (1/2 : ℚ) = 1/2 then 1 - 3/5 else 1) ∧
    [(0 : ℚ), 1/4, 1].map (make_fus_scale (3/5) (1/2) 0) =
      [(0 : ℚ), 1/4, 1].map (fun _ => (1 : ℚ)) :=
  zero_duration_window (3/5) (1/2) (1/2) [0, 1/4, 1] (by norm_num)

/-- Modelled from the spec: the simulator time grid.  The integrator and
recorder are nengo library code (nengo.Simulator, sim.run, sim.trange in
src/src/bg_fus_interactive.py lines 81 to 84) absent from src; per the spec
(sections 3, 4.6 and 8) a run of duration T at step dt samples the times
0, dt, 2 dt, up to floor (T / dt) steps after 0. -/
def trange (dt T : ℚ) : List ℚ :=
  (List.range (Int.toNat ⌊T / dt⌋ + 1)).map (fun k : ℕ => (k : ℚ) * dt)

/-- Modelled from the spec: a probe on the signal f records, at each grid
time, the pair of the timestamp and the sampled value (section 3, Probe). -/
def probeSeries (f : ℚ → Fin 2 → ℚ) (dt T : ℚ) : List (ℚ × (Fin 2 → ℚ)) :=
  (trange dt T).map (fun t => (t, f t))

/-- The linear congruential step used to model the pseudo-random generator
state; any fixed deterministic step serves, since the claims depend only on
how the state is seeded, not on its distribution. -/
def lcgStep (x : ℕ) : ℕ :=
  (1103515245 * x + 12345) % 2147483648

/-- Embeds np.random.seed(seed) (src/src/bg_fus_interactive.py line 66 and
src/src/bg_gpi_supression_demo.py line 53): the incoming process-wide
generator state is discarded and replaced by a state derived from the seed
alone. -/
def npRandomSeed (_ambientState : ℕ) (seed : ℕ) : ℕ :=
  lcgStep seed

/-- Modelled from the spec: a build-time stochastic perturbation drawn from
the generator state, as a rational in [-1, 1]; the spec requires every
stochastic term to draw from the generator seeded by the run
(section 4.6). -/
def buildNoise (g : ℕ) : ℚ :=
  ((lcgStep g % 2001 : ℕ) : ℚ) / 1000 - 1

/-- The parameter bundle consumed by run_and_plot
(src/src/bg_fus_interactive.py line 65). -/
structure ParamBundle where
  A1 : ℚ
  A2 : ℚ
  kappa : ℚ
  fus_start : ℚ
  fus_dur : ℚ
  T : ℚ
  seed : ℕ

/-- Modelled from the spec: one simulated run as recorded at the cortex
probe.  The simulator is nengo library code absent from src; per the spec
the run seeds its generator from the bundle (np.random.seed on line 66,
Simulator seed on line 81), draws any stochastic term from that generator
only, and records floor (T / dt) + 1 samples on the grid; the nengo default
step dt = 1/1000 is used.  The build-time perturbation multiplies the
decoded signal, so the series genuinely depends on the seeded generator
state. -/
def runSeries (p : ParamBundle) (ambientState : ℕ) : List (ℚ × (Fin 2 → ℚ)) :=
  probeSeries
    (fun t i => cortexNode p.A1 p.A2 p.kappa p.fus_start p.fus_dur t i *
      (1 + buildNoise (npRandomSeed ambientState p.seed) / 100))
    (1/1000) p.T

/-- The error taxonomy named by the spec (section 7). -/
inductive RunError where
  | configurationError
  | numericInstabilityError

/-- Embeds run_and_plot (src/src/bg_fus_interactive.py lines 65 to 87): seed
the process generator, rebuild the model from the bundle, run the simulator
for T, extract the probe series.  The source performs no parameter
validation of any kind, so no error path exists; plotting (lines 89 to 105)
is presentation glue outside the core. -/
def run_and_plot (A1 A2 kappa fus_start fus_dur T : ℚ) (seed ambientState : ℕ) :
    Except RunError (List (ℚ × (Fin 2 → ℚ))) :=
  Except.ok (runSeries ⟨A1, A2, kappa, fus_start, fus_dur, T, seed⟩ ambientState)

/-- C4: for every probed signal and every valid bundle, the recorded
sequence has length floor (T / dt) + 1, its first timestamp is 0, and its
timestamps are strictly increasing. -/
theorem probe_series_shape (f : ℚ → Fin 2 → ℚ) (dt T : ℚ) (hdt : 0 < dt) (hT : 0 ≤ T) :
    ((probeSeries f dt T).length : ℤ) = ⌊T / dt⌋ + 1 ∧
    (probeSeries f dt T).head? = some (0, f 0) ∧
    List.Pairwise (· < ·) ((probeSeries f dt T).map Prod.fst) := by
  have hfl : 0 ≤ ⌊T / dt⌋ := Int.floor_nonneg.mpr (div_nonneg hT hdt.le)
  have hlen : (probeSeries f dt T).length = Int.toNat ⌊T / dt⌋ + 1 := by
    simp only [probeSeries, trange, List.length_map, List.length_range]
  refine ⟨?_, ?_, ?_⟩
  · rw [hlen]
    push_cast [Int.toNat_of_nonneg hfl]
    ring
  · simp only [probeSeries, trange, List.range_succ_eq_map, List.map_cons,
      List.head?_cons, Nat.cast_zero, zero_mul]
  · have hmap : (probeSeries f dt T).map Prod.fst = trange dt T := by
      simp only [probeSeries, List.map_map]
      exact List.map_id (trange dt T)
    rw [hmap]
    simp only [trange]
    refine List.Pairwise.map _ ?_ (List.pairwise_lt_range _)
    intro a b hab
    have hcast : (a : ℚ) < (b : ℚ) := by exact_mod_cast hab
    exact mul_lt_mul_of_pos_right hcast hdt

/-- Closed witness for C4 at the default bundle: the cortex probe with
dt = 1/1000 and T = 6/5. -/
theorem probe_series_shape_witness :
    ((probeSeries (cortexNode (4/5) (3/5) (3/5) (1/2) (3/10)) (1/1000) (6/5)).length : ℤ) =
      ⌊(6/5 : ℚ) / (1/1000)⌋ + 1 ∧
    (probeSeries (cortexNode (4/5) (3/5) (3/5) (1/2) (3/10)) (1/1000) (6/5)).head? =
      some (0, cortexNode (4/5) (3/5) (3/5) (1/2) (3/10) 0) ∧
    List.Pairwise (· < ·)
      ((probeSeries (cortexNode (4/5) (3/5) (3/5) (1/2) (3/10)) (1/1000) (6/5)).map Prod.fst) :=
  probe_series_shape (cortexNode (4/5) (3/5) (3/5) (1/2) (3/10)) (1/1000) (6/5)
    (by norm_num) (by norm_num)

/-- C3: two runs with identical parameter bundle and seed produce identical
output series, for any two ambient process-generator states: every
stochastic term draws from the generator that the run itself seeds, so the
ambient state has no influence on the recorded series. -/
theorem run_deterministic (p q : ParamBundle) (g1 g2 : ℕ) (h : p = q) :
    runSeries p g1 = runSeries q g2 := by
  subst h
  rfl

/-- Closed witness for C3: the default bundle run under two different
ambient generator states. -/
theorem run_deterministic_witness :
    runSeries ⟨4/5, 3/5, 3/5, 1/2, 3/10, 6/5, 1⟩ 7 =
      runSeries ⟨4/5, 3/5, 3/5, 1/2, 3/10, 6/5, 1⟩ 99 :=
  run_deterministic ⟨4/5, 3/5, 3/5, 1/2, 3/10, 6/5, 1⟩ ⟨4/5, 3/5, 3/5, 1/2, 3/10, 6/5, 1⟩ 7 99 rfl

/-- Counterexample to C5: the bundle A1 = 4/5, A2 = 3/5, kappa = 2,
fus_start = 1/2, fus_dur = 3/10, T = 6/5, seed = 1 has kappa outside [0, 1],
yet run_and_plot raises no ConfigurationError and records a full series of
1201 probe samples. -/
theorem run_no_validation_cex :
    run_and_plot (4/5) (3/5) 2 (1/2) (3/10) (6/5) 1 0 ≠
      Except.error RunError.configurationError ∧
    (runSeries ⟨4/5, 3/5, 2, 1/2, 3/10, 6/5, 1⟩ 0).length = 1201 := by
  constructor
  · intro h
    exact Except.noConfusion h
  · have hfl : ⌊(6/5 : ℚ) / (1/1000)⌋ = 1200 := by norm_num
    simp only [runSeries, probeSeries, trange, List.length_map, List.length_range, hfl]
    rfl

/-- C5 as amended: run_and_plot performs no parameter validation at all:
for every bundle, including kappa outside [0, 1] or negative fus_dur, the
run starts, completes without raising, and records floor (T / dt) + 1 probe
samples; out-of-range finite values are passed through the stages. -/
theorem run_no_validation (A1 A2 kappa fs fd T : ℚ) (seed g : ℕ) (hT : 0 ≤ T) :
    run_and_plot A1 A2 kappa fs fd T seed g =
      Except.ok (runSeries ⟨A1, A2, kappa, fs, fd, T, seed⟩ g) ∧
    ((runSeries ⟨A1, A2, kappa, fs, fd, T, seed⟩ g).length : ℤ) = ⌊T / (1/1000)⌋ + 1 := by
  have hfl : 0 ≤ ⌊T / (1/1000 : ℚ)⌋ := Int.floor_nonneg.mpr (by positivity)
  refine ⟨rfl, ?_⟩
  simp only [runSeries, probeSeries, trange, List.length_map, List.length_range]
  push_cast [Int.toNat_of_nonneg hfl]
  ring

/-- Closed witness for the amended C5 at a bundle with kappa = 3/2 outside
[0, 1] and negative fus_dur. -/
theorem run_no_validation_witness :
    run_and_plot (4/5) (3/5) (3/2) (1/2) (-1/10) (6/5) 1 5 =
      Except.ok (runSeries ⟨4/5, 3/5, 3/2, 1/2, -1/10, 6/5, 1⟩ 5) ∧
    ((runSeries ⟨4/5, 3/5, 3/2, 1/2, -1/10, 6/5, 1⟩ 5).length : ℤ) =
      ⌊(6/5 : ℚ) / (1/1000)⌋ + 1 :=
  run_no_validation (4/5) (3/5) (3/2) (1/2) (-1/10) (6/5) 1 5 (by norm_num)

/-- The index of the other channel in the two-channel circuit. -/
def otherIdx : Fin 2 → Fin 2 :=
  fun i => if i = 0 then 1 else 0

/-- Modelled from the spec: the BasalGanglia network
(nengo.networks.BasalGanglia, library code absent from src).  Per section
4.3 each channel combines its own drive with a lateral term in the drive of
the other channel and rectifies; the internal constants are an open question
of the spec (section 9), so bias 1 and lateral weight 1/2 are chosen to
satisfy the stated contracts: nonnegative output, antitone in the own drive,
monotone in the other drive, equal outputs for equal drives. -/
def bgOut (d : Fin 2 → ℚ) : Fin 2 → ℚ :=
  fun i => max 0 (1 - d i + (1/2) * d (otherIdx i))

/-- Modelled from the spec: the Thalamus network (nengo.networks.Thalamus,
library code absent from src).  Per section 4.4 each channel relays the
complement of its inhibitory input less a mutual-inhibition term in the
disinhibition of the other channel, rectified; constants as for bgOut. -/
def thOut (u : Fin 2 → ℚ) : Fin 2 → ℚ :=
  fun i => max 0 (1 - u i - (1/2) * max 0 (1 - u (otherIdx i)))

/-- Steady-state relayed output of the pipeline: cortex drives [A1, A2],
the BG stage output is scaled elementwise by the global factor s, and the
thalamus relays; at steady state every synaptic filter has converged onto
its input, so the stages compose directly. -/
def steadyThal (A1 A2 s : ℚ) : Fin 2 → ℚ :=
  thOut (globalScalingStage s (bgOut ![A1, A2]))

lemma max_zero_mono {a b : ℚ} (h : a ≤ b) : max 0 a ≤ max 0 b :=
  max_le_max le_rfl h

lemma bgOut_own_antitone (d dh : Fin 2 → ℚ) (i : Fin 2)
    (hoth : d (otherIdx i) = dh (otherIdx i)) (hown : d i ≤ dh i) :
    bgOut dh i ≤ bgOut d i := by
  unfold bgOut
  apply max_zero_mono
  rw [← hoth]
  linarith

lemma bgOut_other_mono (d dh : Fin 2 → ℚ) (i : Fin 2)
    (hown : d i = dh i) (hoth : d (otherIdx i) ≤ dh (otherIdx i)) :
    bgOut d i ≤ bgOut dh i := by
  unfold bgOut
  apply max_zero_mono
  rw [hown]
  linarith

lemma thOut_antitone (u uh : Fin 2 → ℚ) (i : Fin 2)
    (hown : uh i ≤ u i) (hoth : u (otherIdx i) ≤ uh (otherIdx i)) :
    thOut u i ≤ thOut uh i := by
  unfold thOut
  apply max_zero_mono
  have h2 : max 0 (1 - uh (otherIdx i)) ≤ max 0 (1 - u (otherIdx i)) :=
    max_zero_mono (by linarith)
  linarith

/-- C6: with A2 and the attenuation factor fixed, increasing A1 never
decreases the channel-1 relayed output at steady state (the attenuation
enters as the fixed nonnegative factor c on A1, and the global scale s is
nonnegative); and increasing a channel own drive, the other drive held
fixed, never increases that channel own BG inhibitory output. -/
theorem relay_monotone_in_drive (A1 A1h A2 c s : ℚ) (d dh : Fin 2 → ℚ) (i : Fin 2)
    (hc : 0 ≤ c) (hs : 0 ≤ s) (hA : A1 ≤ A1h)
    (hoth : d (otherIdx i) = dh (otherIdx i)) (hown : d i ≤ dh i) :
    steadyThal (A1 * c) A2 s 0 ≤ steadyThal (A1h * c) A2 s 0 ∧
    bgOut dh i ≤ bgOut d i := by
  refine ⟨?_, bgOut_own_antitone d dh i hoth hown⟩
  have hdrive : A1 * c ≤ A1h * c := mul_le_mul_of_nonneg_right hA hc
  have e00 : (![A1 * c, A2] : Fin 2 → ℚ) (otherIdx 0) =
      (![A1h * c, A2] : Fin 2 → ℚ) (otherIdx 0) := by
    simp [otherIdx]
  have hbg0 : bgOut ![A1h * c, A2] 0 ≤ bgOut ![A1 * c, A2] 0 :=
    bgOut_own_antitone _ _ 0 e00 (by simpa using hdrive)
  have hbg1 : bgOut ![A1 * c, A2] 1 ≤ bgOut ![A1h * c, A2] 1 :=
    bgOut_other_mono _ _ 1 (by simp) (by simpa [otherIdx] using hdrive)
  have hu0 : s * bgOut ![A1h * c, A2] 0 ≤ s * bgOut ![A1 * c, A2] 0 :=
    mul_le_mul_of_nonneg_left hbg0 hs
  have hu1 : s * bgOut ![A1 * c, A2] 1 ≤ s * bgOut ![A1h * c, A2] 1 :=
    mul_le_mul_of_nonneg_left hbg1 hs
  exact thOut_antitone (globalScalingStage s (bgOut ![A1 * c, A2]))
    (globalScalingStage s (bgOut ![A1h * c, A2])) 0 hu0 hu1

/-- Closed witness for C6 at A1 = 1/2 against A1h = 3/4, A2 = 13/20, c = 1,
s = 1 and the drives [1/2, 13/20] against [3/4, 13/20] on channel 0. -/
theorem relay_monotone_witness :
    steadyThal ((1/2) * 1) (13/20) 1 0 ≤ steadyThal ((3/4) * 1) (13/20) 1 0 ∧
    bgOut ![(3/4 : ℚ), 13/20] 0 ≤ bgOut ![(1/2 : ℚ), 13/20] 0 :=
  relay_monotone_in_drive (1/2) (3/4) (13/20) 1 1 ![(1/2 : ℚ), 13/20]
    ![(3/4 : ℚ), 13/20] 0 (by norm_num) (by norm_num) (by norm_num)
    (by simp [otherIdx]) (by norm_num)

/-- C7: with A1 = 17/20, A2 = 13/20 and gpi_scale_base = 1, the winning
relayed channel at steady state outside the pulse (global scale 1) is
channel 1; and driving the pulsed scale s toward 0 brings the two relayed
outputs toward equality: they agree exactly at s = 0 and their gap is at
most (9/20) s throughout 0 ≤ s ≤ 1. -/
theorem selectivity_and_reversal (s : ℚ) (h0 : 0 ≤ s) (h1 : s ≤ 1) :
    steadyThal (17/20) (13/20) 1 1 < steadyThal (17/20) (13/20) 1 0 ∧
    steadyThal (17/20) (13/20) 0 0 = steadyThal (17/20) (13/20) 0 1 ∧
    |steadyThal (17/20) (13/20) s 0 - steadyThal (17/20) (13/20) s 1| ≤ (9/20) * s := by
  refine ⟨?_, ?_, ?_⟩
  · simp only [steadyThal, thOut, globalScalingStage, bgOut, otherIdx]
    norm_num
  · simp only [steadyThal, thOut, globalScalingStage, bgOut, otherIdx]
    norm_num
  · have e0 : steadyThal (17/20) (13/20) s 0 =
        max 0 (1 - s * (19/40) - (1/2) * max 0 (1 - s * (31/40))) := by
      simp only [steadyThal, thOut, globalScalingStage, bgOut, otherIdx]
      norm_num
    have e1 : steadyThal (17/20) (13/20) s 1 =
        max 0 (1 - s * (31/40) - (1/2) * max 0 (1 - s * (19/40))) := by
      simp only [steadyThal, thOut, globalScalingStage, bgOut, otherIdx]
      norm_num
    have hm19 : s * (19/40 : ℚ) ≤ 19/40 := by nlinarith
    have hm31 : s * (31/40 : ℚ) ≤ 31/40 := by nlinarith
    have hx0 : (0 : ℚ) ≤ 1 - s * (19/40) := by linarith
    have hx1 : (0 : ℚ) ≤ 1 - s * (31/40) := by linarith
    have hin0 : (0 : ℚ) ≤ 1 - s * (19/40) - (1/2) * (1 - s * (31/40)) := by nlinarith
    rw [e0, e1, max_eq_right hx1, max_eq_right hx0, max_eq_right hin0]
    by_cases hcase : (0 : ℚ) ≤ 1 - s * (31/40) - (1/2) * (1 - s * (19/40))
    · rw [max_eq_right hcase, abs_of_nonneg (by nlinarith)]
      nlinarith
    · rw [max_eq_left (le_of_not_le hcase), abs_of_nonneg (by linarith)]
      nlinarith

/-- Closed witness for C7 at the pulsed scale s = 1/2. -/
theorem selectivity_and_reversal_witness :
    steadyThal (17/20) (13/20) 1 1 < steadyThal (17/20) (13/20) 1 0 ∧
    steadyThal (17/20) (13/20) 0 0 = steadyThal (17/20) (13/20) 0 1 ∧
    |steadyThal (17/20) (13/20) (1/2) 0 - steadyThal (17/20) (13/20) (1/2) 1| ≤
      (9/20) * (1/2) :=
  selectivity_and_reversal (1/2) (by norm_num) (by norm_num)

end BGFus
